import Mathlib

/-!
Verification of the Secure Action Gateway of the cicero repository: the
browser action guard with its URL tracker, the approval ledger, and the
credential bridge (vault resolve / inject / TOTP inject / vault fill).

The TypeScript sources are embedded shallowly:

* JavaScript strings become `String`; `string | undefined` fields of the
  dynamic parameter bags become `Option String` (a field whose runtime
  value fails the `typeof x === "string"` check is modelled as `none`;
  JavaScript truthiness of a string, which treats `""` as falsy, is the
  predicate `truthyStr`).
* The regular-expression tests of the source are compiled to executable
  matchers over lowered character lists: `jsIncludes` is
  `String.prototype.includes`, `containsSeq` decides an alternation part
  such as `place.?order` (words separated by at most one non-newline
  character), and `containsStarPair` decides `user.*name`.
* The external collaborators are parameters: the URL library is a
  `parse : String → Option String` hostname extractor, the 1Password
  client is a `vault : String → Except String String` secret resolver
  (plus an `Except String Unit` for client construction), and the browser
  surface is a `BrowserEnv` of an `act` function and a snapshot result.
  Effects on the browser surface are recorded in explicit traces so that
  theorems can speak about which calls were made.
* The mutable state of the source (the guard's `lastKnownUrl` cell, the
  URL tracker's cell, the `pendingApprovals` map with its timers and
  promise resolvers) is passed explicitly; timers and resolver callbacks
  are identified by numeric tokens, and firing a resolver is recorded in
  a `resolutions` list.
-/

namespace Cicero

/-! ## JavaScript string and regex primitives -/

/-- Lowercasing as `String.prototype.toLowerCase` acts on the ASCII strings
of this development, written structurally on the character list. -/
def strToLower (s : String) : String :=
  ⟨s.data.map Char.toLower⟩

/-- `String.prototype.startsWith` on the character lists. -/
def strStartsWith (s pre : String) : Bool :=
  pre.data.isPrefixOf s.data

/-- `String.prototype.endsWith` on the character lists. -/
def strEndsWith (s suf : String) : Bool :=
  suf.data.isSuffixOf s.data

/-- Substring containment on character lists: `String.prototype.includes`.
The empty needle is contained in everything, as in JavaScript. -/
def containsSub (needle : List Char) : List Char → Bool
  | [] => needle.isEmpty
  | c :: rest => needle.isPrefixOf (c :: rest) || containsSub needle rest

/-- `s.includes(sub)` of JavaScript. -/
def jsIncludes (s sub : String) : Bool :=
  containsSub sub.data s.data

/-- The character class of the regex dot: any character except a line
terminator. -/
def dotChar (c : Char) : Bool :=
  !(c == '\n' || c == '\r')

/-- Anchored match of a keyword sequence in which consecutive words may be
separated by at most one `dotChar` (the `.?` of the source patterns). -/
def matchSeqAt : List String → List Char → Bool
  | [], _ => true
  | w :: ws, s =>
    w.data.isPrefixOf s &&
    (match ws with
     | [] => true
     | _ :: _ =>
       let rest := s.drop w.length
       matchSeqAt ws rest ||
       (match rest with
        | c :: rest2 => dotChar c && matchSeqAt ws rest2
        | [] => false))

/-- Unanchored version of `matchSeqAt`: the sequence matches somewhere in
the text. -/
def containsSeq (parts : List String) : List Char → Bool
  | [] => matchSeqAt parts []
  | c :: rest => matchSeqAt parts (c :: rest) || containsSeq parts rest

/-- After a `.*` gap: the suffix pattern matches here or after skipping any
run of `dotChar` characters. -/
def starThen (b : List Char) : List Char → Bool
  | [] => b.isEmpty
  | c :: rest => b.isPrefixOf (c :: rest) || (dotChar c && starThen b rest)

/-- Unanchored match of `a.*b` (as in the `user.*name` alternative). -/
def containsStarPair (a b : List Char) : List Char → Bool
  | [] => a.isPrefixOf [] && starThen b []
  | c :: rest =>
    (a.isPrefixOf (c :: rest) && starThen b ((c :: rest).drop a.length)) ||
    containsStarPair a b rest

/-! ## Action guard: purchase keywords and sensitive domains
(src/extensions/secure-browser/src/hooks/browser-guard.ts) -/

/-- The alternatives of the `PURCHASE_KEYWORDS` regex, each as its word
sequence (`.?` separators). -/
def PURCHASE_KEYWORDS : List (List String) :=
  [["place", "order"], ["buy", "now"], ["checkout"], ["complete", "purchase"],
   ["confirm", "order"], ["pay", "now"], ["submit", "order"],
   ["proceed", "to", "pay"], ["place", "your", "order"], ["purchase"],
   ["add", "to", "cart", "and", "checkout"]]

/-- `PURCHASE_KEYWORDS.test(s)`: case-insensitive via lowering. -/
def purchaseKeywordsTest (s : String) : Bool :=
  PURCHASE_KEYWORDS.any (fun alt => containsSeq alt (strToLower s).data)

/-- The `isSensitiveDomain` function of browser-guard.ts. `parse` stands for
the URL library: `some hostname` when `new URL(url)` succeeds, `none` when
it throws, in which case the source falls back to case-insensitive substring
containment on the raw URL string. -/
def isSensitiveDomain (parse : String → Option String) (url : String)
    (domains : List String) : Bool :=
  match parse url with
  | some host =>
    let hostname := strToLower host
    domains.any (fun domain =>
      let d := strToLower domain
      hostname == d || hostname == "www." ++ d || strEndsWith hostname ("." ++ d))
  | none =>
    let lower := strToLower url
    domains.any (fun d => jsIncludes lower (strToLower d))

/-- The `request` sub-object of a browser `act` call, restricted to the
fields the guard reads. -/
structure ActRequest where
  text : Option String
  ref : Option String
  key : Option String
deriving DecidableEq

/-- The browser tool parameter bag, restricted to the fields the guard and
the URL tracker read. -/
structure BrowserParams where
  action : Option String
  targetUrl : Option String
  request : Option ActRequest
deriving DecidableEq

/-- A present string field contributes itself; an absent one contributes
nothing. -/
def optToList : Option String → List String
  | some s => [s]
  | none => []

/-- The `extractActText` function of browser-guard.ts: concatenate
`request.text`, `request.ref`, `request.key` and the top-level `targetUrl`
with single spaces. -/
def extractActText (params : BrowserParams) : String :=
  let fromReq := match params.request with
    | some r => optToList r.text ++ optToList r.ref ++ optToList r.key
    | none => []
  String.intercalate " " (fromReq ++ optToList params.targetUrl)

/-- The advisory refusal text returned on a block. -/
def blockReasonText : String :=
  String.intercalate " "
    ["This action looks like a purchase or financial transaction on a sensitive domain.",
     "You must call confirm_action first to get user approval before proceeding.",
     "Send a screenshot and summary of what you're about to do, then wait for the user's response."]

/-- The current URL the guard sees: `opts.getCurrentUrl?.() ?? lastKnownUrl`.
`getter = none` models an absent getter, `getter = some none` a getter
returning `null`; in both cases the `??` falls back to the handler's own
`lastKnownUrl` cell. -/
def guardCurrentUrl (getter : Option (Option String)) (lastKnown : Option String) :
    Option String :=
  match getter with
  | some (some u) => some u
  | _ => lastKnown

/-- The verdict the guard reaches on an `act` action once the current URL
has been looked up: `some reason` to block, `none` to let the action pass.
An empty current URL is falsy in the source and passes. -/
def guardActDecision (parse : String → Option String) (doms : List String)
    (currentUrl : Option String) (params : BrowserParams) : Option String :=
  match currentUrl with
  | none => none
  | some u =>
    if u == "" then none
    else if !(isSensitiveDomain parse u doms) then none
    else if !(purchaseKeywordsTest (extractActText params)) then none
    else some blockReasonText

/-- Outcome of one `before_tool_call` invocation of the guard handler: the
new value of its `lastKnownUrl` cell and the optional block. -/
structure GuardDecision where
  lastKnownUrl : Option String
  blockReason : Option String
deriving DecidableEq

/-- One step of the handler returned by `createBrowserGuardHandler`:
ignore non-browser tools, record `navigate` targets in the
`lastKnownUrl` cell, and guard only `act` actions. -/
def browserGuardStep (parse : String → Option String) (doms : List String)
    (getter : Option (Option String)) (lastKnownUrl : Option String)
    (toolName : String) (params : BrowserParams) : GuardDecision :=
  if toolName != "browser" then ⟨lastKnownUrl, none⟩
  else
    let action := (params.action).getD ""
    let last1 :=
      if action == "navigate" && (params.targetUrl).isSome then params.targetUrl
      else lastKnownUrl
    if action != "act" then ⟨last1, none⟩
    else ⟨last1, guardActDecision parse doms (guardCurrentUrl getter last1) params⟩

/-! ## URL tracker (createUrlTracker of browser-guard.ts) -/

/-- The fields of a tool result the tracker reads. -/
structure TrackerResult where
  url : Option String
deriving DecidableEq

/-- The navigate-tracking half of the `after_tool_call` handler: a
`navigate` action with a string target overwrites the cell. -/
def urlTrackerNav (current : Option String) (params : BrowserParams) : Option String :=
  if (params.action).getD "" == "navigate" && (params.targetUrl).isSome then params.targetUrl
  else current

/-- One step of the `after_tool_call` handler of `createUrlTracker`:
non-browser tools are ignored; a `navigate` action's string target updates
the cell, and a string `url` on the result updates it afterwards (so the
result takes precedence when both are present). -/
def urlTrackerStep (current : Option String) (toolName : String)
    (params : BrowserParams) (result : Option TrackerResult) : Option String :=
  if toolName != "browser" then current
  else
    match result with
    | some r =>
      match r.url with
      | some u => some u
      | none => urlTrackerNav current params
    | none => urlTrackerNav current params

/-! ## Approval ledger (confirm-action.ts)

The `pendingApprovals` map, its timers and the promise resolvers are made
explicit: an entry carries a numeric `resolverId` naming the promise
resolver allocated by `waitForApproval` and a numeric `timerId` naming its
`setTimeout` handle. Calling a resolver with a boolean is recorded by
consing onto `resolutions`; `clearTimeout` is recorded on
`canceledTimers`. -/

/-- One entry of the `pendingApprovals` map. -/
structure PendingApproval where
  id : String
  resolverId : Nat
  timerId : Nat
deriving DecidableEq

/-- The ledger state together with the observable effects on timers and
resolvers. -/
structure ApprovalLedger where
  entries : List (String × PendingApproval)
  canceledTimers : List Nat
  resolutions : List (Nat × Bool)
deriving DecidableEq

/-- `Map.prototype.get` on the association list. -/
def ledgerGet (entries : List (String × PendingApproval)) (id : String) :
    Option PendingApproval :=
  (entries.find? (fun p => p.1 == id)).map (fun p => p.2)

/-- `Map.prototype.set`: replace the entry in place when the key is live,
append otherwise. -/
def mapSet (entries : List (String × PendingApproval)) (id : String)
    (v : PendingApproval) : List (String × PendingApproval) :=
  if entries.any (fun p => p.1 == id) then
    entries.map (fun p => if p.1 == id then (id, v) else p)
  else entries ++ [(id, v)]

/-- `Map.prototype.delete`. -/
def mapDelete (entries : List (String × PendingApproval)) (id : String) :
    List (String × PendingApproval) :=
  entries.filter (fun p => !(p.1 == id))

/-- The exported `resolveApproval(approvalId, approved)`: absent id reports
`false`; a live entry has its timer cleared, is removed, and its resolver
is invoked with `approved`, reporting `true`. -/
def resolveApproval (st : ApprovalLedger) (approvalId : String) (approved : Bool) :
    ApprovalLedger × Bool :=
  match ledgerGet st.entries approvalId with
  | none => (st, false)
  | some entry =>
    ({ entries := mapDelete st.entries approvalId,
       canceledTimers := entry.timerId :: st.canceledTimers,
       resolutions := (entry.resolverId, approved) :: st.resolutions }, true)

/-- The registration half of `waitForApproval`: allocate a promise resolver
and a timeout timer (the fresh tokens `resolverId` and `timerId`) and
`Map.set` the entry. -/
def waitForApprovalCreate (st : ApprovalLedger) (approvalId : String)
    (resolverId timerId : Nat) : ApprovalLedger :=
  { st with entries := mapSet st.entries approvalId ⟨approvalId, resolverId, timerId⟩ }

/-- The body of the `setTimeout` callback in `waitForApproval`: delete the
entry and resolve the waiting promise with `false`. It runs only when the
timer was not cleared first. -/
def approvalTimeoutFire (st : ApprovalLedger) (approvalId : String)
    (resolverId : Nat) : ApprovalLedger :=
  { st with entries := mapDelete st.entries approvalId,
            resolutions := (resolverId, false) :: st.resolutions }

/-! ## Credential bridge (vault.ts and vault-fill.ts)

The 1Password client and the browser surface are parameters. `clientOk`
is the outcome of `getClient()` (`.error` when no service-account token is
configured); `vault path` is `client.secrets.resolve(path)`. A
`BrowserEnv` bundles `browserAct` (over the fields the bridge sends:
element ref and typed text) and the accessibility snapshot. The traces
record the snapshot calls and every `(ref, text)` the bridge types, so
that theorems can state which fields were attempted; the traces are not
part of any result object. -/

/-- The credentials record of vault.ts. -/
structure VaultCredentials where
  username : String
  password : String
  totp : Option String
deriving DecidableEq

/-- One node of the accessibility snapshot. -/
structure AriaNode where
  ref : String
  role : String
  name : String
  description : Option String
deriving DecidableEq

/-- The browser collaborator as the bridge uses it. -/
structure BrowserEnv where
  act : String → String → Except String Unit
  snapshot : Except String (List AriaNode)

/-- JavaScript truthiness of an optional string: absent and `""` are
falsy. -/
def truthyStr : Option String → Bool
  | some s => !(s == "")
  | none => false

/-- The `op://` base path: a full reference is kept, a bare item name gets
the configured prefix (default `Private/`). -/
def vaultBasePath (vaultPre : Option String) (itemRef : String) : String :=
  if strStartsWith itemRef "op://" then itemRef
  else "op://" ++ vaultPre.getD "Private/" ++ itemRef

/-- `vaultResolve` of vault.ts: username and password are required, the
one-time-password field is optional (its failure is swallowed). -/
def vaultResolve (clientOk : Except String Unit)
    (vault : String → Except String String) (vaultPre : Option String)
    (itemRef : String) : Except String VaultCredentials :=
  match clientOk with
  | .error e => .error e
  | .ok _ =>
    let basePath := vaultBasePath vaultPre itemRef
    match vault (basePath ++ "/username") with
    | .error e => .error e
    | .ok username =>
      match vault (basePath ++ "/password") with
      | .error e => .error e
      | .ok password =>
        let totp := match vault (basePath ++ "/one-time password") with
          | .ok t => some t
          | .error _ => none
        .ok ⟨username, password, totp⟩

/-- The explicit field map of `vaultInject`, restricted to the two keys the
source reads. -/
structure VaultFieldMap where
  username : Option String
  password : Option String
deriving DecidableEq

/-- Effects of one `vaultInject` / `vaultInjectTotp` run on the browser
surface: how many snapshots were taken and which `(ref, text)` pairs were
typed, in order. -/
structure InjectTrace where
  snapshots : Nat
  typed : List (String × String)
deriving DecidableEq

/-- The `{ filled }` result object. -/
structure InjectResult where
  filled : Bool
deriving DecidableEq

/-- The field-resolver step for the username/email field: first `textbox`
whose name plus description matches `/email|username|login|user.*name|e-?mail/i`. -/
def emailFieldRegex (s : String) : Bool :=
  let l := strToLower s
  jsIncludes l "email" || jsIncludes l "username" || jsIncludes l "login" ||
  containsStarPair "user".data "name".data l.data ||
  (jsIncludes l "email" || jsIncludes l "e-mail")

/-- The password matcher `/password|passwd|pass/i`. -/
def passwordFieldRegex (s : String) : Bool :=
  let l := strToLower s
  jsIncludes l "password" || jsIncludes l "passwd" || jsIncludes l "pass"

/-- The TOTP matcher `/code|otp|totp|verify|authenticat|2fa|mfa|one.?time/i`. -/
def totpFieldRegex (s : String) : Bool :=
  let l := strToLower s
  jsIncludes l "code" || jsIncludes l "otp" || jsIncludes l "totp" ||
  jsIncludes l "verify" || jsIncludes l "authenticat" || jsIncludes l "2fa" ||
  jsIncludes l "mfa" || containsSeq ["one", "time"] l.data

/-- First snapshot node qualifying as the username/email input. -/
def findEmailNode (nodes : List AriaNode) : Option AriaNode :=
  nodes.find? (fun n => n.role == "textbox" &&
    emailFieldRegex (n.name ++ n.description.getD ""))

/-- First snapshot node qualifying as the password input. -/
def findPasswordNode (nodes : List AriaNode) : Option AriaNode :=
  nodes.find? (fun n => n.role == "textbox" &&
    passwordFieldRegex (n.name ++ n.description.getD ""))

/-- First snapshot node qualifying as the TOTP/verification-code input. -/
def findTotpNode (nodes : List AriaNode) : Option AriaNode :=
  nodes.find? (fun n => n.role == "textbox" &&
    totpFieldRegex (n.name ++ n.description.getD ""))

/-- `vaultInject` of vault.ts: resolve the credentials, then fill either
through the explicit field map (when both refs are truthy) or through
snapshot auto-detection. Returns the result object (never the credential
values) together with the browser-effect trace. -/
def vaultInject (clientOk : Except String Unit)
    (vault : String → Except String String) (env : BrowserEnv)
    (itemRef : String) (fieldMap : Option VaultFieldMap)
    (vaultPre : Option String) : Except String InjectResult × InjectTrace :=
  match vaultResolve clientOk vault vaultPre itemRef with
  | .error e => (.error e, ⟨0, []⟩)
  | .ok creds =>
    let usernameRef := fieldMap.bind (fun m => m.username)
    let passwordRef := fieldMap.bind (fun m => m.password)
    if truthyStr usernameRef && truthyStr passwordRef then
      let uRef := usernameRef.getD ""
      let pRef := passwordRef.getD ""
      match env.act uRef creds.username with
      | .error e => (.error e, ⟨0, [(uRef, creds.username)]⟩)
      | .ok _ =>
        match env.act pRef creds.password with
        | .error e => (.error e, ⟨0, [(uRef, creds.username), (pRef, creds.password)]⟩)
        | .ok _ => (.ok ⟨true⟩, ⟨0, [(uRef, creds.username), (pRef, creds.password)]⟩)
    else
      match env.snapshot with
      | .error _ =>
        (.error "Failed to take page snapshot for credential injection", ⟨1, []⟩)
      | .ok nodes =>
        match findEmailNode nodes with
        | none => (.error "Could not auto-detect username/email input field on page", ⟨1, []⟩)
        | some emailNode =>
          match findPasswordNode nodes with
          | none => (.error "Could not auto-detect password input field on page", ⟨1, []⟩)
          | some passwordNode =>
            match env.act emailNode.ref creds.username with
            | .error e => (.error e, ⟨1, [(emailNode.ref, creds.username)]⟩)
            | .ok _ =>
              match env.act passwordNode.ref creds.password with
              | .error e =>
                (.error e,
                 ⟨1, [(emailNode.ref, creds.username), (passwordNode.ref, creds.password)]⟩)
              | .ok _ =>
                (.ok ⟨true⟩,
                 ⟨1, [(emailNode.ref, creds.username), (passwordNode.ref, creds.password)]⟩)

/-- `vaultInjectTotp` of vault.ts: `{ filled: false }` when `!creds.totp`
holds in the source — the item has no one-time-password field, or that
field resolved to the empty string (both are falsy in JavaScript) —
otherwise fill through the explicit ref or snapshot auto-detection. -/
def vaultInjectTotp (clientOk : Except String Unit)
    (vault : String → Except String String) (env : BrowserEnv)
    (itemRef : String) (totpRef : Option String)
    (vaultPre : Option String) : Except String InjectResult × InjectTrace :=
  match vaultResolve clientOk vault vaultPre itemRef with
  | .error e => (.error e, ⟨0, []⟩)
  | .ok creds =>
    match creds.totp with
    | none => (.ok ⟨false⟩, ⟨0, []⟩)
    | some totp =>
      if totp == "" then (.ok ⟨false⟩, ⟨0, []⟩)
      else if truthyStr totpRef then
        let r := totpRef.getD ""
        match env.act r totp with
        | .error e => (.error e, ⟨0, [(r, totp)]⟩)
        | .ok _ => (.ok ⟨true⟩, ⟨0, [(r, totp)]⟩)
      else
        match env.snapshot with
        | .error _ => (.error "Failed to take page snapshot for TOTP injection", ⟨1, []⟩)
        | .ok nodes =>
          match findTotpNode nodes with
          | none =>
            (.error "Could not auto-detect TOTP/verification code input field on page", ⟨1, []⟩)
          | some codeNode =>
            match env.act codeNode.ref totp with
            | .error e => (.error e, ⟨1, [(codeNode.ref, totp)]⟩)
            | .ok _ => (.ok ⟨true⟩, ⟨1, [(codeNode.ref, totp)]⟩)

/-! ## vault_fill tool (vault-fill.ts) -/

/-- The `FIELD_ALIASES` table mapping human field names onto the vault's
canonical vocabulary. -/
def FIELD_ALIASES : List (String × String) :=
  [("credit card number", "credit card number"),
   ("card number", "credit card number"),
   ("ccn", "credit card number"),
   ("cvv", "verification number"),
   ("cvc", "verification number"),
   ("security code", "verification number"),
   ("expiration date", "expiry date"),
   ("exp date", "expiry date"),
   ("expiry", "expiry date"),
   ("card expiry", "expiry date"),
   ("cardholder name", "cardholder name"),
   ("name on card", "cardholder name"),
   ("zip", "zip or postal code"),
   ("postal code", "zip or postal code"),
   ("zip code", "zip or postal code")]

/-- `resolveFieldName`: alias lookup on the lowercased name, identity when
no alias applies. -/
def resolveFieldName (name : String) : String :=
  match FIELD_ALIASES.find? (fun p => p.1 == strToLower name) with
  | some p => p.2
  | none => name

/-- The result object of the vault_fill tool: either the fatal
`{ success: false, error }` of the outer catch / argument validation, or
the per-field report of counts and error strings. -/
inductive FillResult
  | fatal (error : String)
  | report (success : Bool) (filled : Nat) (total : Nat) (errors : List String)
deriving DecidableEq

/-- Effects of a vault_fill run: every secret path handed to the vault and
every `(ref, text)` typed, in order. -/
structure FillTrace where
  resolves : List String
  typed : List (String × String)
deriving DecidableEq

/-- The per-field error string vault_fill records. -/
def fillErrorMsg (fieldName ref msg : String) : String :=
  "Field \"" ++ fieldName ++ "\" (ref " ++ ref ++ "): " ++ msg

/-- The `for (const [ref, fieldName] of Object.entries(fields))` loop of
vault_fill: each failure is caught, recorded and the loop continues. -/
def vaultFillLoop (vault : String → Except String String)
    (browser : String → String → Except String Unit) (basePath : String) :
    List (String × String) → Nat → List String → FillTrace →
    Nat × List String × FillTrace
  | [], filled, errors, tr => (filled, errors, tr)
  | (ref, fieldName) :: rest, filled, errors, tr =>
    let path := basePath ++ "/" ++ resolveFieldName fieldName
    let tr1 : FillTrace := ⟨tr.resolves ++ [path], tr.typed⟩
    match vault path with
    | .error m =>
      vaultFillLoop vault browser basePath rest filled
        (errors ++ [fillErrorMsg fieldName ref m]) tr1
    | .ok value =>
      let tr2 : FillTrace := ⟨tr1.resolves, tr1.typed ++ [(ref, value)]⟩
      match browser ref value with
      | .error m =>
        vaultFillLoop vault browser basePath rest filled
          (errors ++ [fillErrorMsg fieldName ref m]) tr2
      | .ok _ =>
        vaultFillLoop vault browser basePath rest (filled + 1) errors tr2

/-- The execute body of `createVaultFillTool`: validate the field mapping,
construct the client, then run the fill loop and report only counts and
error strings. -/
def vaultFillExec (clientOk : Except String Unit)
    (vault : String → Except String String)
    (browser : String → String → Except String Unit) (vaultPre : Option String)
    (vaultItem : String) (fields : List (String × String)) :
    FillResult × FillTrace :=
  if fields.isEmpty then
    (.fatal "fields is required and must be a non-empty object mapping refs to vault field names",
     ⟨[], []⟩)
  else
    match clientOk with
    | .error m => (.fatal m, ⟨[], []⟩)
    | .ok _ =>
      let basePath := vaultBasePath vaultPre vaultItem
      let out := vaultFillLoop vault browser basePath fields 0 [] ⟨[], []⟩
      (.report out.2.1.isEmpty out.1 fields.length out.2.1, out.2.2)


/-- Two vault responses of the same shape: both resolve (to possibly
different secret strings) or both fail with the same message. Two runs
"differing only in the secret strings the vault returns" are runs against
vaults related pointwise by this predicate. -/
def exceptSameShape (e1 e2 : Except String String) : Prop :=
  (∃ a b, e1 = .ok a ∧ e2 = .ok b) ∨ (∃ m, e1 = .error m ∧ e2 = .error m)

/-! ## Helper lemmas on the ledger's map operations -/

/-- Deleting a key makes its lookup fail. -/
theorem ledgerGet_mapDelete (entries : List (String × PendingApproval)) (id : String) :
    ledgerGet (mapDelete entries id) id = none := by
  induction entries with
  | nil => rfl
  | cons p rest ih =>
    unfold ledgerGet mapDelete at ih ⊢
    rw [List.filter_cons]
    by_cases hp : (p.1 == id) = true
    · rw [hp]
      simpa using ih
    · have hp' : (p.1 == id) = false := by
        cases hq : (p.1 == id) with
        | true => exact absurd hq hp
        | false => rfl
      rw [hp']
      simp only [Bool.not_false, if_pos]
      rw [List.find?]
      rw [hp']
      simpa using ih

/-- In the replace branch of `Map.set`, the first entry with the key becomes
the new value, so lookup finds it. -/
theorem find?_map_replace (id : String) (v : PendingApproval) :
    ∀ entries : List (String × PendingApproval),
      entries.any (fun p => p.1 == id) = true →
      (entries.map (fun p => if p.1 == id then (id, v) else p)).find?
          (fun p => p.1 == id) = some (id, v)
  | [], h => by simp at h
  | p :: rest, h => by
    rw [List.map_cons]
    by_cases hp : (p.1 == id) = true
    · rw [if_pos hp]
      exact List.find?_cons_of_pos _ (by simp)
    · have hp' : (p.1 == id) = false := by
        cases hq : (p.1 == id) with
        | true => exact absurd hq hp
        | false => rfl
      rw [if_neg hp, List.find?_cons_of_neg _ (by simp [hp'])]
      have hrest : rest.any (fun p => p.1 == id) = true := by
        rw [List.any_cons, hp'] at h
        simpa using h
      exact find?_map_replace id v rest hrest

/-- Appending the fresh entry makes its lookup succeed when the key was not
live. -/
theorem find?_append_single_self (id : String) (v : PendingApproval) :
    ∀ entries : List (String × PendingApproval),
      entries.any (fun p => p.1 == id) = false →
      (entries ++ [(id, v)]).find? (fun p => p.1 == id) = some (id, v)
  | [], _ => by
    rw [List.nil_append]
    exact List.find?_cons_of_pos _ (by simp [beq_iff_eq])
  | p :: rest, h => by
    rw [List.any_cons] at h
    have hp := (Bool.or_eq_false_iff.mp h).1
    have hrest := (Bool.or_eq_false_iff.mp h).2
    rw [List.cons_append, List.find?_cons_of_neg _ (by simp [hp])]
    exact find?_append_single_self id v rest hrest

/-- Lookup after `Map.set` yields the entry just written. -/
theorem ledgerGet_mapSet_self (entries : List (String × PendingApproval))
    (id : String) (v : PendingApproval) :
    ledgerGet (mapSet entries id v) id = some v := by
  unfold mapSet
  by_cases h : entries.any (fun p => p.1 == id) = true
  · rw [if_pos h]
    unfold ledgerGet
    rw [find?_map_replace id v entries h]
    rfl
  · have h' : entries.any (fun p => p.1 == id) = false := by
      cases hq : entries.any (fun p => p.1 == id) with
      | true => exact absurd hq h
      | false => rfl
    rw [if_neg h]
    unfold ledgerGet
    rw [find?_append_single_self id v entries h']
    rfl

/-- `Map.set` does not change the lookup of any other key (replace branch). -/
theorem find?_map_replace_other (id : String) (v : PendingApproval) (id2 : String)
    (hne : id2 ≠ id) :
    ∀ entries : List (String × PendingApproval),
      (entries.map (fun p => if p.1 == id then (id, v) else p)).find?
          (fun p => p.1 == id2) = entries.find? (fun p => p.1 == id2)
  | [] => rfl
  | p :: rest => by
    rw [List.map_cons]
    by_cases hp : (p.1 == id) = true
    · have hpeq : p.1 = id := by simpa [beq_iff_eq] using hp
      have hid2 : ¬ (((id, v) : String × PendingApproval).1 == id2) = true := by
        simp only [beq_iff_eq]
        exact fun heq => hne (heq.symm)
      have hp2 : ¬ (p.1 == id2) = true := by
        simp only [beq_iff_eq, hpeq]
        exact fun heq => hne (heq.symm)
      have e1 : List.find? (fun q => q.1 == id2)
          ((id, v) :: rest.map (fun p => if p.1 == id then (id, v) else p))
          = List.find? (fun q => q.1 == id2)
              (rest.map (fun p => if p.1 == id then (id, v) else p)) :=
        List.find?_cons_of_neg _ hid2
      have e2 : List.find? (fun q => q.1 == id2) (p :: rest)
          = List.find? (fun q => q.1 == id2) rest :=
        List.find?_cons_of_neg _ hp2
      rw [if_pos hp, e1, e2]
      exact find?_map_replace_other id v id2 hne rest
    · rw [if_neg hp]
      by_cases hq : (p.1 == id2) = true
      · have e1 : List.find? (fun q => q.1 == id2)
            (p :: rest.map (fun p => if p.1 == id then (id, v) else p)) = some p :=
          List.find?_cons_of_pos _ hq
        have e2 : List.find? (fun q => q.1 == id2) (p :: rest) = some p :=
          List.find?_cons_of_pos _ hq
        rw [e1, e2]
      · have e1 : List.find? (fun q => q.1 == id2)
            (p :: rest.map (fun p => if p.1 == id then (id, v) else p))
            = List.find? (fun q => q.1 == id2)
                (rest.map (fun p => if p.1 == id then (id, v) else p)) :=
          List.find?_cons_of_neg _ hq
        have e2 : List.find? (fun q => q.1 == id2) (p :: rest)
            = List.find? (fun q => q.1 == id2) rest :=
          List.find?_cons_of_neg _ hq
        rw [e1, e2]
        exact find?_map_replace_other id v id2 hne rest

/-- Appending the fresh entry does not change the lookup of another key. -/
theorem find?_append_single_other (id : String) (v : PendingApproval) (id2 : String)
    (hne : id2 ≠ id) :
    ∀ entries : List (String × PendingApproval),
      (entries ++ [(id, v)]).find? (fun p => p.1 == id2)
        = entries.find? (fun p => p.1 == id2)
  | [] => by
    rw [List.nil_append]
    have hid2 : ¬ (((id, v) : String × PendingApproval).1 == id2) = true := by
      simp only [beq_iff_eq]
      exact fun heq => hne (heq.symm)
    have e1 : List.find? (fun q => q.1 == id2) ((id, v) :: ([] : List (String × PendingApproval)))
        = List.find? (fun q => q.1 == id2) ([] : List (String × PendingApproval)) :=
      List.find?_cons_of_neg _ hid2
    rw [e1]
  | p :: rest => by
    rw [List.cons_append]
    by_cases hq : (p.1 == id2) = true
    · have e1 : List.find? (fun q => q.1 == id2) (p :: (rest ++ [(id, v)])) = some p :=
        List.find?_cons_of_pos _ hq
      have e2 : List.find? (fun q => q.1 == id2) (p :: rest) = some p :=
        List.find?_cons_of_pos _ hq
      rw [e1, e2]
    · have e1 : List.find? (fun q => q.1 == id2) (p :: (rest ++ [(id, v)]))
          = List.find? (fun q => q.1 == id2) (rest ++ [(id, v)]) :=
        List.find?_cons_of_neg _ hq
      have e2 : List.find? (fun q => q.1 == id2) (p :: rest)
          = List.find? (fun q => q.1 == id2) rest :=
        List.find?_cons_of_neg _ hq
      rw [e1, e2]
      exact find?_append_single_other id v id2 hne rest

/-- `Map.set` leaves every other key's lookup unchanged. -/
theorem ledgerGet_mapSet_other (entries : List (String × PendingApproval))
    (id : String) (v : PendingApproval) (id2 : String) (hne : id2 ≠ id) :
    ledgerGet (mapSet entries id v) id2 = ledgerGet entries id2 := by
  unfold mapSet
  by_cases h : entries.any (fun p => p.1 == id) = true
  · rw [if_pos h]
    unfold ledgerGet
    rw [find?_map_replace_other id v id2 hne entries]
  · rw [if_neg h]
    unfold ledgerGet
    rw [find?_append_single_other id v id2 hne entries]

/-- The replace branch of `Map.set` keeps the key list unchanged. -/
theorem keys_map_replace (id : String) (v : PendingApproval)
    (entries : List (String × PendingApproval)) :
    (entries.map (fun p => if p.1 == id then (id, v) else p)).map Prod.fst
      = entries.map Prod.fst := by
  induction entries with
  | nil => rfl
  | cons p rest ih =>
    rw [List.map_cons, List.map_cons, List.map_cons, ih]
    by_cases hp : (p.1 == id) = true
    · have hpeq : p.1 = id := by simpa [beq_iff_eq] using hp
      rw [if_pos hp]
      simp [hpeq]
    · rw [if_neg hp]

/-! ## Claims about the approval ledger -/

/-- C2: `resolve(id, approved)` resolves a live entry exactly once. The
first call cancels the entry's timer, removes the entry, fires the
resolver callback exactly once with the given `approved` value and
returns `true`; a second call on the same id finds nothing, changes
nothing, fires nothing and returns `false`. -/
theorem resolveApproval_exactly_once (st : ApprovalLedger) (id : String)
    (entry : PendingApproval) (b b2 : Bool)
    (h : ledgerGet st.entries id = some entry) :
    (resolveApproval st id b).2 = true ∧
    (resolveApproval st id b).1.resolutions = (entry.resolverId, b) :: st.resolutions ∧
    (resolveApproval st id b).1.canceledTimers = entry.timerId :: st.canceledTimers ∧
    ledgerGet (resolveApproval st id b).1.entries id = none ∧
    resolveApproval (resolveApproval st id b).1 id b2 = ((resolveApproval st id b).1, false) := by
  have hstep : resolveApproval st id b =
      ({ entries := mapDelete st.entries id,
         canceledTimers := entry.timerId :: st.canceledTimers,
         resolutions := (entry.resolverId, b) :: st.resolutions }, true) := by
    unfold resolveApproval
    rw [h]
  have hdel : ledgerGet (mapDelete st.entries id) id = none := ledgerGet_mapDelete _ _
  refine ⟨by rw [hstep], by rw [hstep], by rw [hstep], by rw [hstep]; exact hdel, ?_⟩
  rw [hstep]
  unfold resolveApproval
  rw [show ({ entries := mapDelete st.entries id,
              canceledTimers := entry.timerId :: st.canceledTimers,
              resolutions := (entry.resolverId, b) :: st.resolutions } :
        ApprovalLedger).entries = mapDelete st.entries id from rfl, hdel]

/-- C2 witness: a concrete double resolve on id `ab12cd34`. -/
theorem resolveApproval_exactly_once_witness :
    (resolveApproval ⟨[("ab12cd34", ⟨"ab12cd34", 5, 7⟩)], [], []⟩ "ab12cd34" true).2 = true ∧
    (resolveApproval ⟨[("ab12cd34", ⟨"ab12cd34", 5, 7⟩)], [], []⟩ "ab12cd34" true).1.resolutions
      = [(5, true)] ∧
    (resolveApproval ⟨[("ab12cd34", ⟨"ab12cd34", 5, 7⟩)], [], []⟩ "ab12cd34" true).1.canceledTimers
      = [7] ∧
    ledgerGet (resolveApproval ⟨[("ab12cd34", ⟨"ab12cd34", 5, 7⟩)], [], []⟩
        "ab12cd34" true).1.entries "ab12cd34" = none ∧
    resolveApproval (resolveApproval ⟨[("ab12cd34", ⟨"ab12cd34", 5, 7⟩)], [], []⟩
        "ab12cd34" true).1 "ab12cd34" true
      = ((resolveApproval ⟨[("ab12cd34", ⟨"ab12cd34", 5, 7⟩)], [], []⟩ "ab12cd34" true).1, false) :=
  resolveApproval_exactly_once ⟨[("ab12cd34", ⟨"ab12cd34", 5, 7⟩)], [], []⟩
    "ab12cd34" ⟨"ab12cd34", 5, 7⟩ true true rfl

/-- C3 counterexample: `waitForApproval` registers its entry with a plain
`Map.set`, so creating an approval under a colliding id silently replaces
the live entry (the old resolver and timer are orphaned) instead of
failing; no failure is signalled anywhere. -/
theorem waitForApprovalCreate_replaces_colliding_entry :
    (waitForApprovalCreate ⟨[("a", ⟨"a", 1, 2⟩)], [], []⟩ "a" 3 4).entries
      = [("a", ⟨"a", 3, 4⟩)] ∧
    ledgerGet (waitForApprovalCreate ⟨[("a", ⟨"a", 1, 2⟩)], [], []⟩ "a" 3 4).entries "a"
      = some ⟨"a", 3, 4⟩ ∧
    (waitForApprovalCreate ⟨[("a", ⟨"a", 1, 2⟩)], [], []⟩ "a" 3 4).resolutions = [] :=
  ⟨rfl, rfl, rfl⟩

/-- C3 amended: the ledger keeps at most one live entry per id —
`create(id)` inserts the entry keyed by `id`, preserves key uniqueness and
leaves all other ids untouched — but a collision with a live entry
replaces that entry rather than failing. -/
theorem waitForApprovalCreate_unique_keys (st : ApprovalLedger) (id : String)
    (r t : Nat) (h : (st.entries.map Prod.fst).Nodup) :
    ledgerGet (waitForApprovalCreate st id r t).entries id = some ⟨id, r, t⟩ ∧
    ((waitForApprovalCreate st id r t).entries.map Prod.fst).Nodup ∧
    ∀ id2, id2 ≠ id →
      ledgerGet (waitForApprovalCreate st id r t).entries id2 = ledgerGet st.entries id2 := by
  refine ⟨ledgerGet_mapSet_self st.entries id _, ?_, fun id2 hne =>
    ledgerGet_mapSet_other st.entries id _ id2 hne⟩
  show ((mapSet st.entries id ⟨id, r, t⟩).map Prod.fst).Nodup
  unfold mapSet
  by_cases hc : st.entries.any (fun p => p.1 == id) = true
  · rw [if_pos hc, keys_map_replace]
    exact h
  · rw [if_neg hc, List.map_append]
    have hid : id ∉ st.entries.map Prod.fst := by
      intro hmem
      rcases List.mem_map.mp hmem with ⟨p, hp, hfst⟩
      have : st.entries.any (fun p => p.1 == id) = true :=
        List.any_eq_true.mpr ⟨p, hp, by simp [beq_iff_eq, hfst]⟩
      exact hc this
    have hid2 : ∀ x : PendingApproval, (id, x) ∉ st.entries := fun x hx =>
      hid (List.mem_map.mpr ⟨(id, x), hx, rfl⟩)
    simpa [List.nodup_append] using ⟨h, hid2⟩

/-- C3 amended witness: creating under a fresh id in a singleton ledger. -/
theorem waitForApprovalCreate_unique_keys_witness :
    ledgerGet (waitForApprovalCreate ⟨[("a", ⟨"a", 1, 2⟩)], [], []⟩ "b" 3 4).entries "b"
      = some ⟨"b", 3, 4⟩ ∧
    (((waitForApprovalCreate ⟨[("a", ⟨"a", 1, 2⟩)], [], []⟩ "b" 3 4).entries.map
        Prod.fst).Nodup) ∧
    ∀ id2, id2 ≠ "b" →
      ledgerGet (waitForApprovalCreate ⟨[("a", ⟨"a", 1, 2⟩)], [], []⟩ "b" 3 4).entries id2
        = ledgerGet [("a", ⟨"a", 1, 2⟩)] id2 :=
  waitForApprovalCreate_unique_keys ⟨[("a", ⟨"a", 1, 2⟩)], [], []⟩ "b" 3 4 (by simp)

/-- C4: when no external resolution arrives within the window, the timeout
callback removes the entry and invokes the resolver with `approved =
false` (the suspended Approval Tool call therefore returns denial), and
every later `resolve` on that id reports `false` and changes nothing. -/
theorem approvalTimeout_denies_and_removes (st : ApprovalLedger) (id : String)
    (r t : Nat) (b : Bool) :
    ledgerGet (approvalTimeoutFire (waitForApprovalCreate st id r t) id r).entries id = none ∧
    (approvalTimeoutFire (waitForApprovalCreate st id r t) id r).resolutions
      = (r, false) :: st.resolutions ∧
    resolveApproval (approvalTimeoutFire (waitForApprovalCreate st id r t) id r) id b
      = (approvalTimeoutFire (waitForApprovalCreate st id r t) id r, false) := by
  have hdel : ledgerGet (mapDelete (waitForApprovalCreate st id r t).entries id) id = none :=
    ledgerGet_mapDelete _ _
  refine ⟨hdel, rfl, ?_⟩
  unfold resolveApproval
  rw [show (approvalTimeoutFire (waitForApprovalCreate st id r t) id r).entries
      = mapDelete (waitForApprovalCreate st id r t).entries id from rfl, hdel]


/-- Helper: the guard never blocks an action whose kind is not `act`. -/
theorem browserGuardStep_not_act (parse : String → Option String) (doms : List String)
    (getter : Option (Option String)) (lastKnown : Option String) (params : BrowserParams)
    (h : params.action ≠ some "act") :
    (browserGuardStep parse doms getter lastKnown "browser" params).blockReason = none := by
  unfold browserGuardStep
  rw [if_neg (by simp)]
  by_cases ha : params.action.getD "" = "act"
  · exfalso
    cases hp : params.action with
    | none => rw [hp] at ha; exact absurd ha (by decide)
    | some a =>
      rw [hp] at ha
      simp only [Option.getD_some] at ha
      exact h (by rw [hp, ha])
  · rw [if_pos (by simp [bne_iff_ne, ha])]

/-- Helper: on an `act` action the guard leaves its cell alone and delegates
to `guardActDecision` over the tracked current URL. -/
theorem browserGuardStep_act (parse : String → Option String) (doms : List String)
    (getter : Option (Option String)) (lastKnown : Option String) (params : BrowserParams)
    (h : params.action = some "act") :
    browserGuardStep parse doms getter lastKnown "browser" params
      = ⟨lastKnown, guardActDecision parse doms (guardCurrentUrl getter lastKnown) params⟩ := by
  unfold browserGuardStep
  rw [if_neg (by simp), h]
  simp only [Option.getD_some]
  simp only [show ("act" == "navigate") = false from rfl,
    show ("act" != "act") = false from rfl, Bool.false_and, Bool.false_eq_true,
    if_false, ite_false]

/-- Helper: unfolding of `guardActDecision` at a present URL. -/
theorem guardActDecision_some_eq (parse : String → Option String) (doms : List String)
    (params : BrowserParams) (u : String) :
    guardActDecision parse doms (some u) params
      = if u == "" then none
        else if !(isSensitiveDomain parse u doms) then none
        else if !(purchaseKeywordsTest (extractActText params)) then none
        else some blockReasonText := rfl

/-- Helper: at a nonempty URL the act verdict blocks exactly when the
domain test and the keyword test both pass. -/
theorem guardActDecision_isSome (parse : String → Option String) (doms : List String)
    (params : BrowserParams) (u : String) (hne : u ≠ "") :
    (guardActDecision parse doms (some u) params).isSome
      = (isSensitiveDomain parse u doms && purchaseKeywordsTest (extractActText params)) := by
  have h0 : ¬ ((u == "") = true) := by simp [hne]
  rw [guardActDecision_some_eq, if_neg h0]
  cases hs : isSensitiveDomain parse u doms with
  | false => simp
  | true =>
    cases hk : purchaseKeywordsTest (extractActText params) with
    | false => simp [hk]
    | true => simp [hk]

/-- C1: for a browser action with a tracked current URL the guard blocks
iff the action kind is `act`, the URL is on a configured sensitive domain
and the extracted action text matches a purchase-intent keyword; any
non-`act` action (navigate, snapshot, status, ...) always passes. -/
theorem guard_blocks_iff_sensitive_and_intent (parse : String → Option String)
    (doms : List String) (getter : Option (Option String)) (lastKnown : Option String)
    (params : BrowserParams) (u : String)
    (hurl : guardCurrentUrl getter lastKnown = some u) (hne : u ≠ "") :
    ((browserGuardStep parse doms getter lastKnown "browser" params).blockReason.isSome = true
      ↔ params.action = some "act" ∧ isSensitiveDomain parse u doms = true ∧
        purchaseKeywordsTest (extractActText params) = true) ∧
    (∀ g l p2, (p2 : BrowserParams).action ≠ some "act" →
      (browserGuardStep parse doms g l "browser" p2).blockReason = none) := by
  constructor
  · constructor
    · intro hb
      by_cases hact : params.action = some "act"
      · refine ⟨hact, ?_⟩
        rw [browserGuardStep_act parse doms getter lastKnown params hact] at hb
        simp only at hb
        rw [hurl, guardActDecision_isSome parse doms params u hne] at hb
        simp only [Bool.and_eq_true] at hb
        exact hb
      · rw [browserGuardStep_not_act parse doms getter lastKnown params hact] at hb
        simp at hb
    · rintro ⟨hact, hs, hk⟩
      rw [browserGuardStep_act parse doms getter lastKnown params hact]
      simp only
      rw [hurl, guardActDecision_isSome parse doms params u hne, hs, hk]
      rfl
  · exact fun g l p2 h2 => browserGuardStep_not_act parse doms g l p2 h2

/-- C10: an `act` action issued before any URL has been observed (getter
yields null, no navigate seen) is allowed unconditionally — the guard
fails open — whatever the domains and the action text. -/
theorem guard_fails_open_before_any_url (parse : String → Option String)
    (doms : List String) (params : BrowserParams)
    (h : params.action = some "act") :
    browserGuardStep parse doms (some none) none "browser" params
      = ⟨none, none⟩ := by
  rw [browserGuardStep_act parse doms (some none) none params h]
  rfl

/-- C10 witness: purchase-like text and configured domains, yet allowed. -/
theorem guard_fails_open_before_any_url_witness :
    browserGuardStep (fun _ => some "amazon.com") ["amazon.com"] (some none) none "browser"
      ⟨some "act", none, some ⟨some "Buy now", none, none⟩⟩ = ⟨none, none⟩ :=
  guard_fails_open_before_any_url (fun _ => some "amazon.com") ["amazon.com"]
    ⟨some "act", none, some ⟨some "Buy now", none, none⟩⟩ rfl

/-- C1 witness: the four domain/intent truth-table combinations on
`shop.test`, plus a passing `navigate` whose own text matches a keyword. -/
theorem guard_blocks_iff_witness :
    ((browserGuardStep (fun v => if v == "https://shop.test/checkout" then some "shop.test" else some "other.test")
        ["shop.test"] (some (some "https://shop.test/checkout")) none "browser"
        ⟨some "act", none, some ⟨some "Place your order", some "e1", none⟩⟩).blockReason.isSome = true) ∧
    ((browserGuardStep (fun v => if v == "https://shop.test/checkout" then some "shop.test" else some "other.test")
        ["shop.test"] (some (some "https://shop.test/checkout")) none "browser"
        ⟨some "act", none, some ⟨some "keep browsing", some "e1", none⟩⟩).blockReason.isSome = false) ∧
    ((browserGuardStep (fun v => if v == "https://shop.test/checkout" then some "shop.test" else some "other.test")
        ["shop.test"] (some (some "https://other.test/cart")) none "browser"
        ⟨some "act", none, some ⟨some "Place your order", some "e1", none⟩⟩).blockReason.isSome = false) ∧
    ((browserGuardStep (fun v => if v == "https://shop.test/checkout" then some "shop.test" else some "other.test")
        ["shop.test"] (some (some "https://other.test/cart")) none "browser"
        ⟨some "act", none, some ⟨some "keep browsing", some "e1", none⟩⟩).blockReason.isSome = false) ∧
    ((browserGuardStep (fun v => if v == "https://shop.test/checkout" then some "shop.test" else some "other.test")
        ["shop.test"] (some (some "https://shop.test/checkout")) none "browser"
        ⟨some "navigate", some "https://shop.test/pay now", none⟩).blockReason = none) := by
  refine ⟨?_, ?_, ?_, ?_, ?_⟩
  · exact (guard_blocks_iff_sensitive_and_intent (fun v => if v == "https://shop.test/checkout" then some "shop.test" else some "other.test") ["shop.test"]
      (some (some "https://shop.test/checkout")) none
      ⟨some "act", none, some ⟨some "Place your order", some "e1", none⟩⟩
      "https://shop.test/checkout" rfl (by decide)).1.mpr ⟨rfl, rfl, rfl⟩
  · refine Bool.eq_false_iff.mpr (fun hb => ?_)
    rcases (guard_blocks_iff_sensitive_and_intent (fun v => if v == "https://shop.test/checkout" then some "shop.test" else some "other.test") ["shop.test"]
      (some (some "https://shop.test/checkout")) none
      ⟨some "act", none, some ⟨some "keep browsing", some "e1", none⟩⟩
      "https://shop.test/checkout" rfl (by decide)).1.mp hb with ⟨-, -, hk⟩
    exact absurd hk (by decide)
  · refine Bool.eq_false_iff.mpr (fun hb => ?_)
    rcases (guard_blocks_iff_sensitive_and_intent (fun v => if v == "https://shop.test/checkout" then some "shop.test" else some "other.test") ["shop.test"]
      (some (some "https://other.test/cart")) none
      ⟨some "act", none, some ⟨some "Place your order", some "e1", none⟩⟩
      "https://other.test/cart" rfl (by decide)).1.mp hb with ⟨-, hs, -⟩
    exact absurd hs (by decide)
  · refine Bool.eq_false_iff.mpr (fun hb => ?_)
    rcases (guard_blocks_iff_sensitive_and_intent (fun v => if v == "https://shop.test/checkout" then some "shop.test" else some "other.test") ["shop.test"]
      (some (some "https://other.test/cart")) none
      ⟨some "act", none, some ⟨some "keep browsing", some "e1", none⟩⟩
      "https://other.test/cart" rfl (by decide)).1.mp hb with ⟨-, hs, -⟩
    exact absurd hs (by decide)
  · exact (guard_blocks_iff_sensitive_and_intent (fun v => if v == "https://shop.test/checkout" then some "shop.test" else some "other.test") ["shop.test"]
      (some (some "https://shop.test/checkout")) none
      ⟨some "act", none, none⟩
      "https://shop.test/checkout" rfl (by decide)).2
      (some (some "https://shop.test/checkout")) none
      ⟨some "navigate", some "https://shop.test/pay now", none⟩ (by decide)

/-- C9 counterexample: a non-browser tool result carrying a string `url`
does NOT update the tracker cell — `createUrlTracker` returns early on
`toolName !== "browser"`, while the claim says any tool result with a
`url` field updates the cell. -/
theorem urlTracker_non_browser_counterexample :
    urlTrackerStep none "message" ⟨none, none, none⟩ (some ⟨some "https://x.test/a"⟩) = none :=
  rfl

/-- C9 amended: the tracker cell is updated only by browser tool events:
a browser result with a string `url` wins, otherwise a `navigate` action
with a string target sets the cell, otherwise the cell is unchanged; all
events of other tools leave it unchanged. -/
theorem urlTracker_update_cases :
    (∀ current toolName params result, toolName ≠ "browser" →
       urlTrackerStep current toolName params result = current) ∧
    (∀ current params r u, (r : TrackerResult).url = some u →
       urlTrackerStep current "browser" params (some r) = some u) ∧
    (∀ current params u, (params : BrowserParams).action = some "navigate" →
       params.targetUrl = some u →
       urlTrackerStep current "browser" params none = some u ∧
       urlTrackerStep current "browser" params (some ⟨none⟩) = some u) ∧
    (∀ current params, ¬((params : BrowserParams).action = some "navigate" ∧
        params.targetUrl.isSome = true) →
       urlTrackerStep current "browser" params none = current ∧
       urlTrackerStep current "browser" params (some ⟨none⟩) = current) := by
  have hbrowser : (("browser" : String) != "browser") = false := rfl
  have hnav : ∀ current params, (params : BrowserParams).action = some "navigate" →
      params.targetUrl.isSome = true → urlTrackerNav current params = params.targetUrl := by
    intro current params ha ht
    unfold urlTrackerNav
    rw [if_pos (by rw [ha]; simp [ht])]
  have hnonav : ∀ current params, ¬((params : BrowserParams).action = some "navigate" ∧
      params.targetUrl.isSome = true) → urlTrackerNav current params = current := by
    intro current params h
    unfold urlTrackerNav
    rw [if_neg ?_]
    intro hc
    rcases Bool.and_eq_true _ _ ▸ hc with ⟨h1, h2⟩
    refine h ⟨?_, h2⟩
    cases hp : params.action with
    | none => rw [hp] at h1; exact absurd h1 (by decide)
    | some a =>
      rw [hp] at h1
      simp only [Option.getD_some, beq_iff_eq] at h1
      rw [h1]
  refine ⟨?_, ?_, ?_, ?_⟩
  · intro current toolName params result h
    unfold urlTrackerStep
    rw [if_pos (by simp [bne_iff_ne, h])]
  · intro current params r u hr
    obtain ⟨url⟩ := r
    cases hr
    rfl
  · intro current params u ha ht
    have h1 := hnav current params ha (by rw [ht]; rfl)
    constructor
    · show urlTrackerNav current params = some u
      rw [h1, ht]
    · show urlTrackerNav current params = some u
      rw [h1, ht]
  · intro current params h
    have h1 := hnonav current params h
    exact ⟨h1, h1⟩

/-- C9 amended witness: one concrete event per case. -/
theorem urlTracker_update_cases_witness :
    urlTrackerStep none "other_tool" ⟨none, none, none⟩ (some ⟨some "https://a.test/"⟩) = none ∧
    urlTrackerStep none "browser" ⟨some "act", none, none⟩ (some ⟨some "https://b.test/"⟩)
      = some "https://b.test/" ∧
    urlTrackerStep none "browser" ⟨some "navigate", some "https://c.test/", none⟩ none
      = some "https://c.test/" ∧
    urlTrackerStep (some "https://d.test/") "browser" ⟨some "act", none, none⟩ none
      = some "https://d.test/" :=
  ⟨urlTracker_update_cases.1 none "other_tool" ⟨none, none, none⟩
     (some ⟨some "https://a.test/"⟩) (by decide),
   urlTracker_update_cases.2.1 none ⟨some "act", none, none⟩ ⟨some "https://b.test/"⟩
     "https://b.test/" rfl,
   (urlTracker_update_cases.2.2.1 none ⟨some "navigate", some "https://c.test/", none⟩
     "https://c.test/" rfl rfl).1,
   (urlTracker_update_cases.2.2.2 (some "https://d.test/") ⟨some "act", none, none⟩
     (by simp)).1⟩

/-- C5: for a configured domain `d`, a parsed URL whose lowercased
hostname equals `d`, equals `www.<d>` or ends in `.<d>` is sensitive; a
hostname like `notd.com` is not; and a URL the parser rejects degrades to
case-insensitive substring containment over the raw string (the function
is total, so it never throws). -/
theorem isSensitiveDomain_classification :
    (∀ parse : String → Option String, ∀ domains : List String, ∀ d url host : String,
       d ∈ domains → parse url = some host →
       (strToLower host = strToLower d ∨
        strToLower host = "www." ++ strToLower d ∨
        strEndsWith (strToLower host) ("." ++ strToLower d) = true) →
       isSensitiveDomain parse url domains = true) ∧
    (∀ parse : String → Option String, ∀ domains : List String, ∀ url : String,
       parse url = none →
       isSensitiveDomain parse url domains
         = domains.any (fun d => jsIncludes (strToLower url) (strToLower d))) ∧
    isSensitiveDomain (fun _ => some "notd.com") "https://notd.com" ["d.com"] = false := by
  refine ⟨?_, ?_, rfl⟩
  · intro parse domains d url host hd hp hmatch
    unfold isSensitiveDomain
    rw [hp]
    refine List.any_eq_true.mpr ⟨d, hd, ?_⟩
    rcases hmatch with h | h | h
    · simp [beq_iff_eq, h]
    · simp [beq_iff_eq, h]
    · simp [h]
  · intro parse domains url hp
    unfold isSensitiveDomain
    rw [hp]

/-- C5 witness: `www.` form, subdomain form, and the malformed-URL
fallback. -/
theorem isSensitiveDomain_classification_witness :
    isSensitiveDomain (fun _ => some "www.shop.test") "https://www.shop.test/cart" ["shop.test"]
      = true ∧
    isSensitiveDomain (fun _ => some "sub.shop.test") "https://sub.shop.test/" ["shop.test"]
      = true ∧
    isSensitiveDomain (fun _ => none) "https://[malformed shop.test" ["shop.test"] = true :=
  ⟨isSensitiveDomain_classification.1 (fun _ => some "www.shop.test") ["shop.test"]
     "shop.test" "https://www.shop.test/cart" "www.shop.test" (by simp) rfl
     (Or.inr (Or.inl rfl)),
   isSensitiveDomain_classification.1 (fun _ => some "sub.shop.test") ["shop.test"]
     "shop.test" "https://sub.shop.test/" "sub.shop.test" (by simp) rfl
     (Or.inr (Or.inr rfl)),
   by
     rw [isSensitiveDomain_classification.2.1 (fun _ => none)
       ["shop.test"] "https://[malformed shop.test" rfl]
     rfl⟩


/-- C7 counterexample: a supplied but incomplete field map (username ref
only, no password ref) does NOT bypass the Field Resolver — the source
checks `usernameRef && passwordRef`, so auto-detection runs (a snapshot is
taken) even though an explicit field map was supplied. -/
theorem inject_partial_map_uses_resolver :
    (vaultInject (.ok ()) (fun _ => .ok "s") ⟨fun _ _ => .ok (), .ok []⟩ "amazon"
        (some ⟨some "e1", none⟩) none).2.snapshots = 1 ∧
    (vaultInject (.ok ()) (fun _ => .ok "s") ⟨fun _ _ => .ok (), .ok []⟩ "amazon"
        (some ⟨some "e1", none⟩) none).1
      = .error "Could not auto-detect username/email input field on page" :=
  ⟨rfl, rfl⟩

/-- C7 amended: an explicit field map supplying both a username and a
password ref (both nonempty) never invokes the Field Resolver (no
snapshot is taken); with no field map, a snapshot containing an
email/username-matching textbox and a password-matching textbox leads to
success, and a snapshot in which no email/username field is found fails
with the FieldNotFound error for the username field. -/
theorem inject_fieldmap_and_autodetect :
    (∀ clientOk vault env itemRef vaultPre uRef pRef, uRef ≠ "" → pRef ≠ "" →
       (vaultInject clientOk vault env itemRef (some ⟨some uRef, some pRef⟩)
           vaultPre).2.snapshots = 0) ∧
    (∀ vault env itemRef vaultPre creds nodes en pn,
       vaultResolve (.ok ()) vault vaultPre itemRef = .ok creds →
       (env : BrowserEnv).snapshot = .ok nodes →
       findEmailNode nodes = some en →
       findPasswordNode nodes = some pn →
       (∀ r t, env.act r t = .ok ()) →
       (vaultInject (.ok ()) vault env itemRef none vaultPre).1 = .ok ⟨true⟩) ∧
    (∀ vault env itemRef vaultPre creds nodes,
       vaultResolve (.ok ()) vault vaultPre itemRef = .ok creds →
       (env : BrowserEnv).snapshot = .ok nodes →
       findEmailNode nodes = none →
       (vaultInject (.ok ()) vault env itemRef none vaultPre).1
         = .error "Could not auto-detect username/email input field on page") := by
  refine ⟨?_, ?_, ?_⟩
  · intro clientOk vault env itemRef vaultPre uRef pRef hu hp
    cases hres : vaultResolve clientOk vault vaultPre itemRef with
    | error e => simp [vaultInject, hres]
    | ok creds =>
      have hu' : (uRef == "") = false := by simp [hu]
      have hp' : (pRef == "") = false := by simp [hp]
      simp only [vaultInject, hres, Option.bind_some, Option.some_bind, Option.getD_some]
      rw [if_pos (by simp [truthyStr, hu', hp'])]
      cases h1 : env.act uRef creds.username with
      | error e => rfl
      | ok w =>
        cases h2 : env.act pRef creds.password with
        | error e => rfl
        | ok w2 => rfl
  · intro vault env itemRef vaultPre creds nodes en pn hres hsnap hemail hpw hact
    simp only [vaultInject, hres, Option.bind_none, Option.none_bind]
    rw [if_neg (by simp [truthyStr])]
    simp only [hsnap, hemail, hpw, hact]
  · intro vault env itemRef vaultPre creds nodes hres hsnap hemail
    simp only [vaultInject, hres, Option.bind_none, Option.none_bind]
    rw [if_neg (by simp [truthyStr])]
    simp only [hsnap, hemail]

/-- C8 counterexample: in the vault_fill tool a failed field does NOT
abort the attempt: with the first of two fields failing to resolve, the
second field is still resolved and filled (`filled = 1`, both paths in the
resolve trace), and the error is reported in the `errors` list rather
than aborting. -/
theorem vault_fill_continues_after_failure :
    (vaultFillExec (.ok ())
        (fun p => if p == "op://Private/card/f1" then .error "boom" else .ok "v2")
        (fun _ _ => .ok ()) none "card" [("e1", "f1"), ("e2", "f2")]).1
      = .report false 1 2 ["Field \"f1\" (ref e1): boom"] ∧
    (vaultFillExec (.ok ())
        (fun p => if p == "op://Private/card/f1" then .error "boom" else .ok "v2")
        (fun _ _ => .ok ()) none "card" [("e1", "f1"), ("e2", "f2")]).2.resolves
      = ["op://Private/card/f1", "op://Private/card/f2"] :=
  ⟨rfl, rfl⟩

/-- Helper: the fill loop hands every field's path to the vault exactly
once, in order, regardless of earlier failures. -/
theorem vaultFillLoop_resolves (vault : String → Except String String)
    (browser : String → String → Except String Unit) (basePath : String) :
    ∀ (fields : List (String × String)) (filled : Nat) (errors : List String) (tr : FillTrace),
      (vaultFillLoop vault browser basePath fields filled errors tr).2.2.resolves
        = tr.resolves ++ fields.map (fun f => basePath ++ "/" ++ resolveFieldName f.2)
  | [], filled, errors, tr => by simp [vaultFillLoop]
  | (ref, fieldName) :: rest, filled, errors, tr => by
    unfold vaultFillLoop
    cases hv : vault (basePath ++ "/" ++ resolveFieldName fieldName) with
    | error m =>
      simp only [hv]
      rw [vaultFillLoop_resolves vault browser basePath rest filled
        (errors ++ [fillErrorMsg fieldName ref m]) _]
      simp
    | ok value =>
      simp only [hv]
      cases hb : browser ref value with
      | error m =>
        simp only [hb]
        rw [vaultFillLoop_resolves vault browser basePath rest filled
          (errors ++ [fillErrorMsg fieldName ref m]) _]
        simp
      | ok w =>
        simp only [hb]
        rw [vaultFillLoop_resolves vault browser basePath rest (filled + 1) errors _]
        simp

/-- C8 amended: the login path (`vaultInject`) aborts on the first failed
field injection, surfaces that error and never touches the remaining
field; the vault_fill path instead attempts every field exactly once
(no retries), continuing past failures and surfacing them in the result. -/
theorem inject_aborts_fill_attempts_each_once :
    (∀ clientOk vault env itemRef vaultPre uRef pRef creds e,
       vaultResolve clientOk vault vaultPre itemRef = .ok creds →
       uRef ≠ "" → pRef ≠ "" →
       (env : BrowserEnv).act uRef creds.username = .error e →
       (vaultInject clientOk vault env itemRef (some ⟨some uRef, some pRef⟩) vaultPre).1
           = .error e ∧
       (vaultInject clientOk vault env itemRef (some ⟨some uRef, some pRef⟩)
           vaultPre).2.typed = [(uRef, creds.username)]) ∧
    (∀ vault browser vaultPre vaultItem fields, fields ≠ [] →
       (vaultFillExec (.ok ()) vault browser vaultPre vaultItem fields).2.resolves
         = fields.map (fun f =>
             vaultBasePath vaultPre vaultItem ++ "/" ++ resolveFieldName f.2)) := by
  constructor
  · intro clientOk vault env itemRef vaultPre uRef pRef creds e hres hu hp hact
    have hu' : (uRef == "") = false := by simp [hu]
    have hp' : (pRef == "") = false := by simp [hp]
    simp only [vaultInject, hres, Option.bind_some, Option.some_bind, Option.getD_some]
    rw [if_pos (by simp [truthyStr, hu', hp'])]
    rw [hact]
    exact ⟨rfl, rfl⟩
  · intro vault browser vaultPre vaultItem fields hne
    have hempty : fields.isEmpty = false := by
      cases fields with
      | nil => exact absurd rfl hne
      | cons a l => rfl
    simp only [vaultFillExec, hempty, Bool.false_eq_true, if_false]
    rw [vaultFillLoop_resolves]
    simp

/-- Helper: against vaults of the same shape, `vaultResolve` either fails
identically or succeeds on both sides with the same TOTP-presence, and a
present TOTP code is exactly what the vault returned for the
one-time-password path. -/
theorem vaultResolve_shape (clientOk : Except String Unit)
    (vault1 vault2 : String → Except String String) (vaultPre : Option String)
    (itemRef : String) (hV : ∀ p, exceptSameShape (vault1 p) (vault2 p)) :
    (∃ m, vaultResolve clientOk vault1 vaultPre itemRef = .error m ∧
          vaultResolve clientOk vault2 vaultPre itemRef = .error m) ∨
    (∃ c1 c2, vaultResolve clientOk vault1 vaultPre itemRef = .ok c1 ∧
              vaultResolve clientOk vault2 vaultPre itemRef = .ok c2 ∧
              c1.totp.isSome = c2.totp.isSome ∧
              (∀ t, c1.totp = some t →
                vault1 (vaultBasePath vaultPre itemRef ++ "/one-time password") = .ok t) ∧
              (∀ t, c2.totp = some t →
                vault2 (vaultBasePath vaultPre itemRef ++ "/one-time password") = .ok t)) := by
  cases clientOk with
  | error e => exact Or.inl ⟨e, rfl, rfl⟩
  | ok w =>
    rcases hV (vaultBasePath vaultPre itemRef ++ "/username") with
      ⟨a1, a2, hu1, hu2⟩ | ⟨m, hu1, hu2⟩
    · rcases hV (vaultBasePath vaultPre itemRef ++ "/password") with
        ⟨b1, b2, hp1, hp2⟩ | ⟨m, hp1, hp2⟩
      · rcases hV (vaultBasePath vaultPre itemRef ++ "/one-time password") with
          ⟨t1, t2, ht1, ht2⟩ | ⟨m, ht1, ht2⟩
        · refine Or.inr ⟨⟨a1, b1, some t1⟩, ⟨a2, b2, some t2⟩, ?_, ?_, rfl, ?_, ?_⟩
          · simp only [vaultResolve, hu1, hp1, ht1]
          · simp only [vaultResolve, hu2, hp2, ht2]
          · intro t ht
            cases ht
            exact ht1
          · intro t ht
            cases ht
            exact ht2
        · refine Or.inr ⟨⟨a1, b1, none⟩, ⟨a2, b2, none⟩, ?_, ?_, rfl, ?_, ?_⟩
          · simp only [vaultResolve, hu1, hp1, ht1]
          · simp only [vaultResolve, hu2, hp2, ht2]
          · intro t ht
            cases ht
          · intro t ht
            cases ht
      · refine Or.inl ⟨m, ?_, ?_⟩
        · simp only [vaultResolve, hu1, hp1]
        · simp only [vaultResolve, hu2, hp2]
    · refine Or.inl ⟨m, ?_, ?_⟩
      · simp only [vaultResolve, hu1]
      · simp only [vaultResolve, hu2]

/-- Helper: the fill loop's filled count and error list do not depend on
which same-shaped vault supplied the secret values. -/
theorem vaultFillLoop_report_eq (vault1 vault2 : String → Except String String)
    (browser : String → String → Except String Unit) (basePath : String)
    (hV : ∀ p, exceptSameShape (vault1 p) (vault2 p))
    (hB : ∀ r t t', browser r t = browser r t') :
    ∀ (fields : List (String × String)) (filled : Nat) (errors : List String)
      (tr1 tr2 : FillTrace),
      (vaultFillLoop vault1 browser basePath fields filled errors tr1).1
        = (vaultFillLoop vault2 browser basePath fields filled errors tr2).1 ∧
      (vaultFillLoop vault1 browser basePath fields filled errors tr1).2.1
        = (vaultFillLoop vault2 browser basePath fields filled errors tr2).2.1
  | [], _, _, _, _ => ⟨rfl, rfl⟩
  | (ref, fieldName) :: rest, filled, errors, tr1, tr2 => by
    unfold vaultFillLoop
    rcases hV (basePath ++ "/" ++ resolveFieldName fieldName) with
      ⟨a1, a2, h1, h2⟩ | ⟨m, h1, h2⟩
    · simp only [h1, h2]
      have hbeq : browser ref a1 = browser ref a2 := hB ref a1 a2
      simp only [hbeq]
      cases hbr : browser ref a2 with
      | error m =>
        exact vaultFillLoop_report_eq vault1 vault2 browser basePath hV hB rest filled
          (errors ++ [fillErrorMsg fieldName ref m]) _ _
      | ok w =>
        exact vaultFillLoop_report_eq vault1 vault2 browser basePath hV hB rest (filled + 1)
          errors _ _
    · simp only [h1, h2]
      exact vaultFillLoop_report_eq vault1 vault2 browser basePath hV hB rest filled
        (errors ++ [fillErrorMsg fieldName ref m]) _ _

/-- C6 counterexample: the TOTP-inject result object is not independent of
the resolved secret values. The two vaults below differ only in the secret
string of the one-time-password path (`.ok ""` vs `.ok "123456"`, the same
shape), yet `vaultInjectTotp` answers `{filled: false}` for the first and
`{filled: true}` for the second, because the source's `if (!creds.totp)`
treats the empty string as falsy. -/
theorem injectTotp_result_depends_on_totp_emptiness :
    exceptSameShape (.ok "") (.ok "123456") ∧
    (vaultInjectTotp (.ok ())
        (fun q => if q == "op://Private/amazon/one-time password" then .ok "" else .ok "s")
        ⟨fun _ _ => .ok (), .ok []⟩ "amazon" (some "e3") none).1 = .ok ⟨false⟩ ∧
    (vaultInjectTotp (.ok ())
        (fun q => if q == "op://Private/amazon/one-time password" then .ok "123456" else .ok "s")
        ⟨fun _ _ => .ok (), .ok []⟩ "amazon" (some "e3") none).1 = .ok ⟨true⟩ :=
  ⟨Or.inl ⟨"", "123456", rfl, rfl⟩, rfl, rfl⟩

/-- C6 amended: the result objects of `vaultInject`, `vaultInjectTotp` and
the vault_fill tool are independent of the resolved secret values, except
that the TOTP-inject result depends on whether the resolved TOTP secret is
empty: two runs against vaults that differ only in the secret strings
(same shape), agreeing on the emptiness of the one-time-password secret,
with a browser whose responses do not depend on the typed text, produce
identical result objects — no secret string itself appears in any
result. -/
theorem credential_results_independent_of_secrets
    (clientOk : Except String Unit) (vault1 vault2 : String → Except String String)
    (env : BrowserEnv) (browser : String → String → Except String Unit)
    (vaultPre : Option String) (itemRef vaultItem : String)
    (fieldMap : Option VaultFieldMap) (totpRef : Option String)
    (fields : List (String × String))
    (hV : ∀ p, exceptSameShape (vault1 p) (vault2 p))
    (hT : ∀ a b,
      vault1 (vaultBasePath vaultPre itemRef ++ "/one-time password") = .ok a →
      vault2 (vaultBasePath vaultPre itemRef ++ "/one-time password") = .ok b →
      (a == "") = (b == ""))
    (hA : ∀ r t t', env.act r t = env.act r t')
    (hB : ∀ r t t', browser r t = browser r t') :
    (vaultInject clientOk vault1 env itemRef fieldMap vaultPre).1
      = (vaultInject clientOk vault2 env itemRef fieldMap vaultPre).1 ∧
    (vaultInjectTotp clientOk vault1 env itemRef totpRef vaultPre).1
      = (vaultInjectTotp clientOk vault2 env itemRef totpRef vaultPre).1 ∧
    (vaultFillExec clientOk vault1 browser vaultPre vaultItem fields).1
      = (vaultFillExec clientOk vault2 browser vaultPre vaultItem fields).1 := by
  rcases vaultResolve_shape clientOk vault1 vault2 vaultPre itemRef hV with
    ⟨m, e1, e2⟩ | ⟨c1, c2, o1, o2, htotp, hprov1, hprov2⟩
  · refine ⟨?_, ?_, ?_⟩
    · simp only [vaultInject, e1, e2]
    · simp only [vaultInjectTotp, e1, e2]
    · -- fill does not depend on the inject resolution
      by_cases hfe : fields.isEmpty
      · simp [vaultFillExec, hfe]
      · simp only [vaultFillExec, hfe, Bool.false_eq_true, if_false]
        cases clientOk with
        | error msg => rfl
        | ok w =>
          have h := vaultFillLoop_report_eq vault1 vault2 browser
            (vaultBasePath vaultPre vaultItem) hV hB fields 0 [] ⟨[], []⟩ ⟨[], []⟩
          simp only [h.1, h.2]
  · refine ⟨?_, ?_, ?_⟩
    · simp only [vaultInject, o1, o2]
      by_cases hf : (truthyStr (fieldMap.bind fun m => m.username) &&
          truthyStr (fieldMap.bind fun m => m.password)) = true
      · rw [if_pos hf, if_pos hf]
        have ha1 : env.act ((fieldMap.bind fun m => m.username).getD "") c1.username
            = env.act ((fieldMap.bind fun m => m.username).getD "") c2.username := hA _ _ _
        cases h1 : env.act ((fieldMap.bind fun m => m.username).getD "") c2.username with
        | error e => simp only [ha1, h1]
        | ok w =>
          have ha2 : env.act ((fieldMap.bind fun m => m.password).getD "") c1.password
              = env.act ((fieldMap.bind fun m => m.password).getD "") c2.password := hA _ _ _
          cases h2 : env.act ((fieldMap.bind fun m => m.password).getD "") c2.password with
          | error e => simp only [ha1, h1, ha2, h2]
          | ok w2 => simp only [ha1, h1, ha2, h2]
      · rw [if_neg hf, if_neg hf]
        cases hsnap : env.snapshot with
        | error e => rfl
        | ok nodes =>
          cases hfe2 : findEmailNode nodes with
          | none => simp only [hfe2]
          | some en =>
            cases hfp : findPasswordNode nodes with
            | none => simp only [hfe2, hfp]
            | some pn =>
              have ha1 : env.act en.ref c1.username = env.act en.ref c2.username := hA _ _ _
              cases h1 : env.act en.ref c2.username with
              | error e => simp only [hfe2, hfp, ha1, h1]
              | ok w =>
                have ha2 : env.act pn.ref c1.password = env.act pn.ref c2.password := hA _ _ _
                cases h2 : env.act pn.ref c2.password with
                | error e => simp only [hfe2, hfp, ha1, h1, ha2, h2]
                | ok w2 => simp only [hfe2, hfp, ha1, h1, ha2, h2]
    · simp only [vaultInjectTotp, o1, o2]
      cases ht1 : c1.totp with
      | none =>
        cases ht2 : c2.totp with
        | none => rfl
        | some t2 =>
          rw [ht1, ht2] at htotp
          simp at htotp
      | some t1 =>
        cases ht2 : c2.totp with
        | none =>
          rw [ht1, ht2] at htotp
          simp at htotp
        | some t2 =>
          have hemp : (t1 == "") = (t2 == "") := hT t1 t2 (hprov1 t1 ht1) (hprov2 t2 ht2)
          by_cases he2 : (t2 == "") = true
          · have he1 : (t1 == "") = true := hemp.trans he2
            simp [he1, he2]
          · have he2f : (t2 == "") = false := by
              cases hq : (t2 == "") with
              | true => exact absurd hq he2
              | false => rfl
            have he1f : (t1 == "") = false := hemp.trans he2f
            by_cases htr : truthyStr totpRef = true
            · have ha1 : env.act (totpRef.getD "") t1 = env.act (totpRef.getD "") t2 := hA _ _ _
              cases h1 : env.act (totpRef.getD "") t2 with
              | error e => simp [he1f, he2f, htr, ha1, h1]
              | ok w => simp [he1f, he2f, htr, ha1, h1]
            · have htr2 : truthyStr totpRef = false := by
                cases hq : truthyStr totpRef with
                | true => exact absurd hq htr
                | false => rfl
              cases hsnap : env.snapshot with
              | error e => simp [he1f, he2f, htr2, hsnap]
              | ok nodes =>
                cases hfc : findTotpNode nodes with
                | none => simp [he1f, he2f, htr2, hsnap, hfc]
                | some cn =>
                  have ha1 : env.act cn.ref t1 = env.act cn.ref t2 := hA _ _ _
                  cases h1 : env.act cn.ref t2 with
                  | error e => simp [he1f, he2f, htr2, hsnap, hfc, ha1, h1]
                  | ok w => simp [he1f, he2f, htr2, hsnap, hfc, ha1, h1]
    · by_cases hfe : fields.isEmpty
      · simp [vaultFillExec, hfe]
      · simp only [vaultFillExec, hfe, Bool.false_eq_true, if_false]
        cases clientOk with
        | error msg => rfl
        | ok w =>
          have h := vaultFillLoop_report_eq vault1 vault2 browser
            (vaultBasePath vaultPre vaultItem) hV hB fields 0 [] ⟨[], []⟩ ⟨[], []⟩
          simp only [h.1, h.2]

/-- C6 amended witness: concrete runs with secrets `secretA` vs `secretB`
(both nonempty, so the TOTP emptiness agrees) yield identical results for
all three operations. -/
theorem credential_results_independent_witness :
    (vaultInject (.ok ()) (fun _ => .ok "secretA") ⟨fun _ _ => .ok (), .ok []⟩ "amazon"
        (some ⟨some "e1", some "e2"⟩) none).1
      = (vaultInject (.ok ()) (fun _ => .ok "secretB") ⟨fun _ _ => .ok (), .ok []⟩ "amazon"
          (some ⟨some "e1", some "e2"⟩) none).1 ∧
    (vaultInjectTotp (.ok ()) (fun _ => .ok "secretA") ⟨fun _ _ => .ok (), .ok []⟩ "amazon"
        (some "e3") none).1
      = (vaultInjectTotp (.ok ()) (fun _ => .ok "secretB") ⟨fun _ _ => .ok (), .ok []⟩ "amazon"
          (some "e3") none).1 ∧
    (vaultFillExec (.ok ()) (fun _ => .ok "secretA") (fun _ _ => .ok ()) none "card"
        [("e1", "cvv")]).1
      = (vaultFillExec (.ok ()) (fun _ => .ok "secretB") (fun _ _ => .ok ()) none "card"
          [("e1", "cvv")]).1 :=
  credential_results_independent_of_secrets (.ok ()) (fun _ => .ok "secretA")
    (fun _ => .ok "secretB") ⟨fun _ _ => .ok (), .ok []⟩ (fun _ _ => .ok ()) none
    "amazon" "card" (some ⟨some "e1", some "e2"⟩) (some "e3") [("e1", "cvv")]
    (fun _ => Or.inl ⟨"secretA", "secretB", rfl, rfl⟩)
    (fun a b h1 h2 => by
      injection h1 with ha
      injection h2 with hb
      rw [← ha, ← hb]
      rfl)
    (fun _ _ _ => rfl) (fun _ _ _ => rfl)


/-- C7 amended witness: a complete field map takes no snapshot; auto-detect
succeeds on an Email/Password page. -/
theorem inject_fieldmap_and_autodetect_witness :
    (vaultInject (.ok ()) (fun _ => .ok "s") ⟨fun _ _ => .ok (), .ok []⟩ "amazon"
        (some ⟨some "e1", some "e2"⟩) none).2.snapshots = 0 ∧
    (vaultInject (.ok ()) (fun _ => .ok "s")
        ⟨fun _ _ => .ok (),
         .ok [⟨"e1", "textbox", "Email", none⟩, ⟨"e2", "textbox", "Password", none⟩]⟩
        "amazon" none none).1 = .ok ⟨true⟩ ∧
    (vaultInject (.ok ()) (fun _ => .ok "s") ⟨fun _ _ => .ok (), .ok []⟩
        "amazon" none none).1
      = .error "Could not auto-detect username/email input field on page" :=
  ⟨inject_fieldmap_and_autodetect.1 (.ok ()) (fun _ => .ok "s")
     ⟨fun _ _ => .ok (), .ok []⟩ "amazon" none "e1" "e2" (by decide) (by decide),
   inject_fieldmap_and_autodetect.2.1 (fun _ => .ok "s")
     ⟨fun _ _ => .ok (),
      .ok [⟨"e1", "textbox", "Email", none⟩, ⟨"e2", "textbox", "Password", none⟩]⟩
     "amazon" none ⟨"s", "s", some "s"⟩
     [⟨"e1", "textbox", "Email", none⟩, ⟨"e2", "textbox", "Password", none⟩]
     ⟨"e1", "textbox", "Email", none⟩ ⟨"e2", "textbox", "Password", none⟩
     rfl rfl rfl rfl (fun _ _ => rfl),
   inject_fieldmap_and_autodetect.2.2 (fun _ => .ok "s") ⟨fun _ _ => .ok (), .ok []⟩
     "amazon" none ⟨"s", "s", some "s"⟩ [] rfl rfl rfl⟩

/-- C8 amended witness: a login whose username injection fails aborts with
that error having typed only the username; a concrete two-field fill
resolves both paths. -/
theorem inject_aborts_fill_attempts_each_once_witness :
    (vaultInject (.ok ()) (fun _ => .ok "s")
        ⟨fun r _ => if r == "e1" then .error "type failed" else .ok (), .ok []⟩
        "amazon" (some ⟨some "e1", some "e2"⟩) none).1 = .error "type failed" ∧
    (vaultInject (.ok ()) (fun _ => .ok "s")
        ⟨fun r _ => if r == "e1" then .error "type failed" else .ok (), .ok []⟩
        "amazon" (some ⟨some "e1", some "e2"⟩) none).2.typed = [("e1", "s")] ∧
    (vaultFillExec (.ok ()) (fun _ => .ok "v") (fun _ _ => .ok ()) none "card"
        [("e1", "cvv"), ("e2", "zip")]).2.resolves
      = ["op://Private/card/verification number", "op://Private/card/zip or postal code"] := by
  have h := inject_aborts_fill_attempts_each_once.1 (.ok ()) (fun _ => .ok "s")
    ⟨fun r _ => if r == "e1" then .error "type failed" else .ok (), .ok []⟩
    "amazon" none "e1" "e2" ⟨"s", "s", some "s"⟩ "type failed" rfl (by decide) (by decide) rfl
  have h2 := inject_aborts_fill_attempts_each_once.2 (fun _ => .ok "v") (fun _ _ => .ok ())
    none "card" [("e1", "cvv"), ("e2", "zip")] (by decide)
  exact ⟨h.1, h.2, by rw [h2]; rfl⟩

end Cicero
